import Mathlib

/-
Verification of the safespill_scraping article classification and
deduplication pipeline.

The development shallowly embeds the pipeline's core logic:
  * `HangarArticleAnalyzer.validate_result` from `analyzer.py` (namespace
    `Analyzer`) and from the legacy variant `anaylzer.py` (namespace
    `Anaylzer`);
  * the batching loop `process_all_articles` / `analyze_batch` of both
    variants, with the LLM response abstracted as an oracle;
  * the URL-based cross-run deduplicator (`SafespillScraper.filter_new_urls`
    and `SafespillScraper._load_existing_urls` from `main.py`) and the
    pattern-based deduplicator (the filtering loop in
    `ExcelHandler.update_existing_excel` and `ExcelHandler.get_existing_urls`
    from `excel_handler.py`).

Raw LLM classification fields are arbitrary JSON-ish values, modelled by
`Value`; Python truthiness, `len`, `.upper()` and string comparison are
modelled explicitly, so that the places where the Python code would raise
(`len` of a number, `.upper()` of a non-string) appear as `Except.error`.
-/

namespace Safespill

/-- A JSON-ish Python value, as produced by `json.loads` for a single
classification field. List values are modelled with string elements — the
only element type the pipeline produces (comma-separated pattern tags). -/
inductive Value where
  | vnull
  | vbool (b : Bool)
  | vnum (n : Int)
  | vstr (s : String)
  | vlist (l : List String)
deriving DecidableEq

/-- Python truthiness (`bool(v)`): `None`, `False`, `0`, `""` and `[]` are
falsy, everything else is truthy. -/
def pyTruthy : Value → Bool
  | .vnull => false
  | .vbool b => b
  | .vnum n => n != 0
  | .vstr s => s != ""
  | .vlist l => !l.isEmpty

/-- Python `len(v)`: defined for strings and lists, raises `TypeError`
(modelled as `none`) otherwise. -/
def pyLen : Value → Option Nat
  | .vstr s => some s.length
  | .vlist l => some l.length
  | _ => none

/-- Python `v == s` for a string literal `s`: values of a different type
compare unequal without raising. -/
def pyEqStr (v : Value) (s : String) : Bool :=
  match v with
  | .vstr t => t == s
  | _ => false

/-- Python `s.upper()` on a string. -/
def pyUpper (s : String) : String :=
  ⟨s.data.map Char.toUpper⟩

/-- The four valid region enum values (`valid_regions` in both variants). -/
def validRegions : List String := ["UK_NA", "EMEA", "APAC", "LATAM"]

/-- A raw classification object as parsed from the LLM response: each of the
four validated fields may be absent (`none`) or hold an arbitrary value. -/
structure RawResult where
  country : Option Value
  region : Option Value
  is_hangar_related : Option Value
  completion_status : Option Value
deriving DecidableEq

/-- `true` iff the raw `country` field is absent or holds a string; on this
domain neither variant of `validate_result` can raise. -/
def countryStrOrAbsent (r : RawResult) : Bool :=
  match r.country with
  | none => true
  | some (.vstr _) => true
  | _ => false

/-- `true` iff the raw `region` field holds one of the four valid enum
strings (the `result.get('region') not in valid_regions` test, negated). -/
def regionFieldValid (rv : Option Value) : Bool :=
  match rv with
  | some (.vstr s) => s ∈ validRegions
  | _ => false

namespace Analyzer

/-- UK_NA countries of the fixed country→region table
(`analyzer.py` line 112). -/
def ukNaCountries : List String := ["US", "CA", "UK", "GB"]

/-- EMEA countries of the fixed country→region table
(`analyzer.py` line 114). -/
def emeaCountries : List String :=
  ["FR", "DE", "IT", "ES", "NL", "BE", "CH", "AT", "SE", "NO", "DK", "FI",
   "PL", "CZ", "HU", "PT", "IE", "GR", "RO", "BG", "HR", "SI", "SK", "LT",
   "LV", "EE", "MT", "CY", "LU", "AE", "SA", "QA", "KW", "BH", "OM", "JO",
   "LB", "IL", "TR", "EG", "ZA", "MA", "TN", "DZ", "LY", "SD", "ET", "KE",
   "UG", "TZ", "ZM", "ZW", "BW", "NA", "MZ", "AO", "GH", "NG", "CI", "SN",
   "ML", "BF", "NE", "TD", "CM", "CF", "CG", "CD", "GA", "GQ", "ST", "CV",
   "GM", "GW", "SL", "LR", "GN", "BJ", "TG", "RW", "BI", "DJ", "SO", "ER",
   "MW", "MG", "MU", "SC", "KM", "YT", "RE"]

/-- APAC countries of the fixed country→region table
(`analyzer.py` line 116). -/
def apacCountries : List String :=
  ["JP", "CN", "KR", "SG", "TH", "MY", "ID", "PH", "VN", "IN", "PK", "BD",
   "LK", "MM", "KH", "LA", "BN", "TL", "MN", "KZ", "KG", "TJ", "TM", "UZ",
   "AF", "IR", "IQ", "SY", "YE", "PS", "AU", "NZ", "PG", "FJ", "SB", "NC",
   "PF", "WS", "VU", "TO", "TV", "NR", "KI", "PW", "MH", "FM", "GU", "MP",
   "AS", "CK", "NU", "TK", "WF"]

/-- LATAM countries of the fixed country→region table
(`analyzer.py` line 118). -/
def latamCountries : List String :=
  ["MX", "BR", "AR", "CL", "CO", "PE", "VE", "EC", "BO", "PY", "UY", "GY",
   "SR", "GF", "CR", "PA", "NI", "HN", "GT", "BZ", "SV", "CU", "DO", "HT",
   "JM", "TT", "BB", "GD", "VC", "LC", "AG", "DM", "KN", "BS", "BM", "PR",
   "VI", "AW", "CW", "SX", "BQ", "MQ", "GP", "BL", "MF", "PM", "TC", "AI",
   "VG", "KY", "MS", "FK"]

/-- Region derivation from the (already normalized) country code: the
`elif` chain of `analyzer.py` lines 112-121, falling back to `"N/A"`. -/
def deriveRegion (c : String) : String :=
  if c ∈ ukNaCountries then "UK_NA"
  else if c ∈ emeaCountries then "EMEA"
  else if c ∈ apacCountries then "APAC"
  else if c ∈ latamCountries then "LATAM"
  else "N/A"

/-- A cleaned classification as left in the result dict by
`analyzer.py`'s `validate_result`: country and region are strings, the two
flags are booleans. -/
structure Validated where
  country : String
  region : String
  is_hangar_related : Bool
  completion_status : Bool
deriving DecidableEq

/-- `HangarArticleAnalyzer.validate_result` of `analyzer.py` (lines 94-129).
`country = result.get('country', 'N/A')`; the test
`country and len(country) == 2 and country != 'N/A'` upper-cases a kept
2-letter code and otherwise forces `'N/A'`; `len` of a truthy unsized value
raises `TypeError` and `.upper()` of a sized non-string raises
`AttributeError` (both modelled as `Except.error`). An invalid region is
re-derived from the normalized country; flags are coerced with `bool`
(defaults `True` / `False`). -/
def validate_result (r : RawResult) : Except String Validated :=
  let cv := r.country.getD (.vstr "N/A")
  let countryE : Except String String :=
    if pyTruthy cv then
      match pyLen cv with
      | none => .error "TypeError"
      | some n =>
        if n == 2 && !(pyEqStr cv "N/A") then
          match cv with
          | .vstr s => .ok (pyUpper s)
          | _ => .error "AttributeError"
        else .ok "N/A"
    else .ok "N/A"
  match countryE with
  | .error e => .error e
  | .ok country =>
    let region :=
      match r.region with
      | some (.vstr s) => if s ∈ validRegions then s else deriveRegion country
      | _ => deriveRegion country
    .ok { country := country
          region := region
          is_hangar_related := pyTruthy (r.is_hangar_related.getD (.vbool true))
          completion_status := pyTruthy (r.completion_status.getD (.vbool false)) }

end Analyzer

namespace Anaylzer

/-- A cleaned classification as left in the result dict by the legacy
`anaylzer.py` `validate_result`: the region is a string and the flags are
booleans, but the country key may be absent or hold any value, because the
code assigns `result['country']` only in its bad-value branch. -/
structure Validated where
  country : Option Value
  region : String
  is_hangar_related : Bool
  completion_status : Bool
deriving DecidableEq

/-- `HangarArticleAnalyzer.validate_result` of `anaylzer.py` (lines 81-98).
An invalid region is replaced by `"N/A"` outright (no country table).
`country = result.get('country', 'N/A')`; only when
`country and len(country) != 2 and country != 'N/A'` is `result['country']`
overwritten with `'N/A'` — otherwise the field is left exactly as it was
(possibly absent, possibly the empty string). `len` of a truthy unsized
value raises `TypeError`. Flags are coerced with `bool`
(defaults `False` / `False`). -/
def validate_result (r : RawResult) : Except String Validated :=
  let region :=
    match r.region with
    | some (.vstr s) => if s ∈ validRegions then s else "N/A"
    | _ => "N/A"
  let cv := r.country.getD (.vstr "N/A")
  let countryE : Except String (Option Value) :=
    if pyTruthy cv then
      match pyLen cv with
      | none => .error "TypeError"
      | some n =>
        if n != 2 && !(pyEqStr cv "N/A") then .ok (some (.vstr "N/A"))
        else .ok r.country
    else .ok r.country
  match countryE with
  | .error e => .error e
  | .ok country =>
    .ok { country := country
          region := region
          is_hangar_related := pyTruthy (r.is_hangar_related.getD (.vbool false))
          completion_status := pyTruthy (r.completion_status.getD (.vbool false)) }

end Anaylzer

/-! ## Batching (`process_all_articles`, both variants)

The loop `for i in range(0, len(articles), self.batch_size)` slices the
input into `ceil(N/B)` consecutive batches of size `B` (the last one
possibly smaller). The LLM call plus JSON parse of one batch is abstracted
as an oracle `Nat → Option (List RawResult)`: `none` models a raised
exception (API error or `json.loads` failure), `some raws` models a parsed
`results` array. -/

/-- Fuel-driven worker for `chunks`; the fuel is an upper bound on the
number of slices, so the recursion is structural and computable. -/
def chunksGo (B : Nat) : Nat → List α → List (List α)
  | _, [] => []
  | 0, _ => []
  | fuel + 1, l => l.take B :: chunksGo B fuel (l.drop B)

/-- The batch slices `articles[i:i+B]` for `i in range(0, len(articles), B)`
(`analyzer.py` lines 171-172, `anaylzer.py` lines 135-136). -/
def chunks (B : Nat) (l : List α) : List (List α) :=
  chunksGo B l.length l

namespace Analyzer

/-- An enriched article: the original article merged (`articles[idx] | {...}`,
`analyzer.py` lines 152-157) with the four validated classification
fields. -/
structure Enriched (A : Type) where
  article : A
  country : String
  region : String
  is_hangar_related : Bool
  completion_status : Bool
deriving DecidableEq

/-- The validation loop of `analyze_batch` (`analyzer.py` lines 149-157):
each raw result is validated and merged with `articles[idx]`. A validation
error or an out-of-range index raises inside the `try`, which discards the
whole batch (`none`). -/
def processBatch (arts : List A) : List RawResult → Nat → Option (List (Enriched A))
  | [], _ => some []
  | raw :: rest, idx =>
    match validate_result raw, arts[idx]? with
    | .ok v, some a =>
      (processBatch arts rest (idx + 1)).map
        (fun tail =>
          { article := a
            country := v.country
            region := v.region
            is_hangar_related := v.is_hangar_related
            completion_status := v.completion_status } :: tail)
    | _, _ => none

/-- `analyze_batch` (`analyzer.py` lines 131-163): any exception — the LLM
call / JSON parse (`resp = none`) or one raised inside the validation loop —
is caught and the batch contributes `[]`. -/
def analyze_batch (arts : List A) (resp : Option (List RawResult)) :
    List (Enriched A) :=
  match resp with
  | none => []
  | some raws =>
    match processBatch arts raws 0 with
    | none => []
    | some vs => vs

/-- The inline post-filter of `process_all_articles` (`analyzer.py`
line 185): keep hangar-related, not-completed articles of the run's
default region. -/
def inTerritory (defaultRegion : String) (e : Enriched A) : Bool :=
  e.is_hangar_related && !e.completion_status && (e.region == defaultRegion)

/-- The batch loop of `process_all_articles`: each batch is analyzed with
its oracle response and the results are concatenated (`all_results.extend`,
a no-op for an empty batch result). -/
def runBatches (oracle : Nat → Option (List RawResult)) :
    List (List A) → Nat → List (Enriched A)
  | [], _ => []
  | b :: bs, i => analyze_batch b (oracle i) ++ runBatches oracle bs (i + 1)

/-- `all_results` accumulated by `process_all_articles`
(`analyzer.py` lines 168-183). -/
def allResults (B : Nat) (arts : List A)
    (oracle : Nat → Option (List RawResult)) : List (Enriched A) :=
  runBatches oracle (chunks B arts) 0

/-- `process_all_articles` (`analyzer.py` lines 165-187): the accumulated
batch results, post-filtered by `inTerritory`. -/
def process_all_articles (defaultRegion : String) (B : Nat) (arts : List A)
    (oracle : Nat → Option (List RawResult)) : List (Enriched A) :=
  (allResults B arts oracle).filter (inTerritory defaultRegion)

/-- Per-batch contributions of the loop, kept as a list of lists (used to
state which batch contributed what). -/
def batchOutputs (oracle : Nat → Option (List RawResult)) :
    List (List A) → Nat → List (List (Enriched A))
  | [], _ => []
  | b :: bs, i => analyze_batch b (oracle i) :: batchOutputs oracle bs (i + 1)

end Analyzer

namespace Anaylzer

/-- A validated result with the original article data attached
(`anaylzer.py` lines 145-148): `original_title` / `original_summary` are
set only for result positions `j < len(batch)`. -/
structure Enriched (A : Type) where
  result : Validated
  original : Option A
deriving DecidableEq

/-- The validation loop of `analyze_batch` (`anaylzer.py` lines 118-121):
every raw result is validated; a validation error raises inside the `try`
and discards the whole batch (`none`). -/
def processBatch : List RawResult → Option (List Validated)
  | [] => some []
  | raw :: rest =>
    match validate_result raw with
    | .ok v => (processBatch rest).map (v :: ·)
    | .error _ => none

/-- `analyze_batch` (`anaylzer.py` lines 100-127): any exception is caught
and the batch contributes `[]`. -/
def analyze_batch (resp : Option (List RawResult)) : List Validated :=
  match resp with
  | none => []
  | some raws =>
    match processBatch raws with
    | none => []
    | some vs => vs

/-- Attach the original article data by position
(`anaylzer.py` lines 145-148). -/
def attachOriginals (batch : List A) (results : List Validated) :
    List (Enriched A) :=
  (results.enum).map (fun p => { result := p.2, original := batch[p.1]? })

/-- Per-batch contributions of the `anaylzer.py` loop. -/
def batchOutputs (oracle : Nat → Option (List RawResult)) :
    List (List A) → Nat → List (List (Enriched A))
  | [], _ => []
  | b :: bs, i => attachOriginals b (analyze_batch (oracle i)) :: batchOutputs oracle bs (i + 1)

/-- The batch loop of `process_all_articles` (`anaylzer.py` lines 135-153). -/
def runBatches (oracle : Nat → Option (List RawResult)) :
    List (List A) → Nat → List (Enriched A)
  | [], _ => []
  | b :: bs, i =>
    attachOriginals b (analyze_batch (oracle i)) ++ runBatches oracle bs (i + 1)

/-- `process_all_articles` (`anaylzer.py` lines 129-155): all batch results
concatenated, with no post-filter. -/
def process_all_articles (B : Nat) (arts : List A)
    (oracle : Nat → Option (List RawResult)) : List (Enriched A) :=
  runBatches oracle (chunks B arts) 0

end Anaylzer

/-! ## Cross-run deduplication

Two identity schemes: URL-exact match (`SafespillScraper.filter_new_urls`,
`main.py` lines 60-68) and pattern tags (the filtering loop of
`ExcelHandler.update_existing_excel`, `excel_handler.py` lines 145-155).
Articles are modelled by the two fields the deduplicators read:
`article.get('Source URL', '')` (the `''` default also stands for an absent
key) and `article.get('patterns', [])`. -/

/-- The `patterns` value of an article dict: absent
(`article.get('patterns', [])` yields `[]`), a comma-separated string, or
already a list of tags. -/
inductive PatternsField where
  | absent
  | ofString (s : String)
  | ofList (l : List String)
deriving DecidableEq

/-- An article as seen by the deduplicators. -/
structure WebArticle where
  sourceUrl : String
  patterns : PatternsField
deriving DecidableEq

/-- Python whitespace as stripped by `str.strip()`. -/
def isPySpace (c : Char) : Bool :=
  c = ' ' || c = '\t' || c = '\n' || c = '\r' || c = '\x0b' || c = '\x0c'

/-- Python `s.strip()`: remove leading and trailing whitespace. -/
def pyStrip (s : String) : String :=
  ⟨((s.data.dropWhile isPySpace).reverse.dropWhile isPySpace).reverse⟩

/-- Worker for `pySplitComma`, over the character list. -/
def pySplitCommaGo : List Char → List Char → List String
  | [], acc => [⟨acc.reverse⟩]
  | c :: cs, acc =>
    if c = ',' then ⟨acc.reverse⟩ :: pySplitCommaGo cs []
    else pySplitCommaGo cs (c :: acc)

/-- Python `s.split(',')`: split on every comma, keeping empty pieces. -/
def pySplitComma (s : String) : List String :=
  pySplitCommaGo s.data []

/-- The pattern tags of one article (`excel_handler.py` lines 148-150): a
string value is split on `','`, each piece stripped, empty pieces dropped
(`[p.strip() for p in patterns.split(',') if p.strip()]`); a list value is
used as is. -/
def getPatterns (a : WebArticle) : List String :=
  match a.patterns with
  | .absent => []
  | .ofString s => ((pySplitComma s).map pyStrip).filter (· != "")
  | .ofList l => l

/-- The body of `ExcelHandler.update_existing_excel`'s dedup loop
(`excel_handler.py` lines 145-155): an article is appended to
`filtered_new_data` iff `any(p not in self.pattern_set for p in patterns)`,
and then every one of its tags is added to `self.pattern_set`. Returns
`(filtered_new_data, final pattern_set)`. -/
def update_existing_excel_filter (s : Finset String) :
    List WebArticle → List WebArticle × Finset String
  | [] => ([], s)
  | a :: l =>
    let ps := getPatterns a
    if ∃ p ∈ ps, p ∉ s then
      let r := update_existing_excel_filter (s ∪ ps.toFinset) l
      (a :: r.1, r.2)
    else update_existing_excel_filter s l

/-- `SafespillScraper.filter_new_urls` (`main.py` lines 60-68): an article
is kept iff `url and url not in self.existing_urls`, and a kept URL is
added to `self.existing_urls` immediately. Returns
`(new_articles, final existing_urls)`. -/
def filter_new_urls (s : Finset String) :
    List WebArticle → List WebArticle × Finset String
  | [] => ([], s)
  | a :: l =>
    if a.sourceUrl ≠ "" ∧ a.sourceUrl ∉ s then
      let r := filter_new_urls (insert a.sourceUrl s) l
      (a :: r.1, r.2)
    else filter_new_urls s l

/-! ## The persisted Excel artifact

A workbook is a list of worksheets (tabs); a worksheet is a list of rows
(including the header row, which the readers skip via `min_row=2`); a cell
is `none` (empty) or a string. -/

/-- `Config.EXCEL_FIELDS` (`config.py` lines 61-72). -/
def excelFields : List String :=
  ["Project Title", "Source URL", "Summary", "Date Published", "Region",
   "Country", "patterns", "Week Collected"]

/-- Zero-based cell index of the `Source URL` column:
`url_column = EXCEL_FIELDS.index('Source URL') + 1` and the readers access
`row[url_column - 1]`. -/
def urlColumnIdx : Nat := excelFields.indexOf "Source URL"

/-- URLs collected from data rows (`for row in ws.iter_rows(min_row=2, ...)`:
the caller passes the rows below the header): a row contributes its URL
cell when the row is long enough and the cell is truthy. -/
def urlsOfRows (rows : List (List (Option String))) : Finset String :=
  rows.foldl
    (fun acc row =>
      match row[urlColumnIdx]? with
      | some (some u) => if u ≠ "" then insert u acc else acc
      | _ => acc) ∅

/-- `ExcelHandler.get_existing_urls` (`excel_handler.py` lines 204-227):
URLs of every worksheet of the workbook, header rows skipped. -/
def get_existing_urls (wb : List (List (List (Option String)))) : Finset String :=
  wb.foldl (fun acc ws => acc ∪ urlsOfRows (ws.drop 1)) ∅

/-- `SafespillScraper._load_existing_urls` (`main.py` lines 39-58): for each
region's workbook it reads `ws = wb.active` — only the active worksheet,
which openpyxl leaves at the first sheet — and collects that sheet's URLs,
header row skipped. -/
def load_existing_urls (wbs : List (List (List (List (Option String))))) :
    Finset String :=
  wbs.foldl (fun acc wb => acc ∪ urlsOfRows ((wb.head?.getD []).drop 1)) ∅

/-! ## Specification-side helpers

Closed-form descriptions of the validators' field behaviour, used to state
the claims; the theorems below prove that the embedded code realizes
them. -/

/-- Closed form of `analyzer.py`'s country normalization: a 2-letter string
is upper-cased, everything else (on the no-raise domain) becomes `"N/A"`. -/
def normCountry : Option Value → String
  | some (.vstr s) => if s.length = 2 then pyUpper s else "N/A"
  | _ => "N/A"

/-- Closed form of `anaylzer.py`'s country handling on the no-raise domain:
a truthy string of length ≠ 2 other than `"N/A"` is overwritten with
`"N/A"`; any other value (including the empty string and an absent key) is
left untouched. -/
def normCountryV2 : Option Value → Option Value
  | some (.vstr s) =>
    if s ≠ "" ∧ s.length ≠ 2 ∧ s ≠ "N/A" then some (.vstr "N/A")
    else some (.vstr s)
  | other => other

/-- The string held by a valid region field (defined arbitrarily
elsewhere; only used under `regionFieldValid`). -/
def regionStrOf : Option Value → String
  | some (.vstr s) => s
  | _ => "N/A"

/-- The five values the cleaned `region` field may take. -/
def regionEnum : List String := ["UK_NA", "EMEA", "APAC", "LATAM", "N/A"]

/-- Success contract for one batch call: the response parses, carries
exactly one result per submitted article, and every raw result is on the
validators' no-raise domain. -/
def batchSucceeds {A : Type} (resp : Option (List RawResult)) (b : List A) :
    Prop :=
  ∃ raws, resp = some raws ∧ raws.length = b.length ∧
    ∀ r ∈ raws, countryStrOrAbsent r = true

/-! ## Helper lemmas -/

theorem pyUpper_length (s : String) : (pyUpper s).length = s.length := by
  cases s with
  | mk l => simp [pyUpper, String.length]

theorem deriveRegion_mem (c : String) : Analyzer.deriveRegion c ∈ regionEnum := by
  unfold Analyzer.deriveRegion regionEnum
  split_ifs <;> simp

theorem normCountry_ok (c : Option Value) :
    normCountry c = "N/A" ∨ (normCountry c).length = 2 := by
  unfold normCountry
  match c with
  | none => simp
  | some .vnull | some (.vbool _) | some (.vnum _) | some (.vlist _) => simp
  | some (.vstr s) =>
    by_cases h : s.length = 2
    · right
      simp [h, pyUpper_length]
    · simp [h]

/-- Characterization of `analyzer.py`'s `validate_result` on its no-raise
domain (country absent or a string): it succeeds and each field takes its
closed-form value. -/
theorem analyzer_validate_eq (r : RawResult) (h : countryStrOrAbsent r = true) :
    Analyzer.validate_result r = .ok
      { country := normCountry r.country
        region :=
          if regionFieldValid r.region then regionStrOf r.region
          else Analyzer.deriveRegion (normCountry r.country)
        is_hangar_related := pyTruthy (r.is_hangar_related.getD (.vbool true))
        completion_status := pyTruthy (r.completion_status.getD (.vbool false)) } := by
  have hregion : ∀ d : String,
      (match r.region with
       | some (.vstr s) => if s ∈ validRegions then s else d
       | _ => d) = if regionFieldValid r.region then regionStrOf r.region else d := by
    intro d
    match hr : r.region with
    | none => simp [regionFieldValid]
    | some .vnull | some (.vbool _) | some (.vnum _) | some (.vlist _) =>
      simp [regionFieldValid]
    | some (.vstr s) =>
      by_cases hs : s ∈ validRegions <;> simp [regionFieldValid, regionStrOf, hs]
  match hc : r.country with
  | none =>
    unfold Analyzer.validate_result
    simp only [hc, Option.getD, pyTruthy, pyLen, pyEqStr, normCountry]
    norm_num
    exact hregion _
  | some (.vstr s) =>
    unfold Analyzer.validate_result
    by_cases hs : s = ""
    · subst hs
      simp only [hc, Option.getD, pyTruthy, pyLen, pyEqStr, normCountry]
      norm_num
      exact hregion _
    · by_cases h2 : s.length = 2
      · have hna : s ≠ "N/A" := by
          intro e
          rw [e] at h2
          simp [String.length] at h2
        simp only [hc, Option.getD, pyTruthy, pyLen, pyEqStr, normCountry]
        norm_num [h2, hna]
        rw [if_neg hs]
        norm_num
        exact hregion _
      · simp only [hc, Option.getD, pyTruthy, pyLen, pyEqStr, normCountry]
        norm_num [hs]
        rw [if_neg (fun hand => h2 hand.1)]
        norm_num [h2]
        exact hregion _
  | some .vnull | some (.vbool _) | some (.vnum _) | some (.vlist _) =>
    rw [countryStrOrAbsent, hc] at h
    cases h

/-- Characterization of `anaylzer.py`'s `validate_result` on its no-raise
domain: it succeeds, an invalid region becomes `"N/A"` with no country
table, and the country field is rewritten only in the truthy,
length ≠ 2, ≠ `'N/A'` case. -/
theorem anaylzer_validate_eq (r : RawResult) (h : countryStrOrAbsent r = true) :
    Anaylzer.validate_result r = .ok
      { country := normCountryV2 r.country
        region := if regionFieldValid r.region then regionStrOf r.region else "N/A"
        is_hangar_related := pyTruthy (r.is_hangar_related.getD (.vbool false))
        completion_status := pyTruthy (r.completion_status.getD (.vbool false)) } := by
  have hregion :
      (match r.region with
       | some (.vstr s) => if s ∈ validRegions then s else "N/A"
       | _ => "N/A") =
      if regionFieldValid r.region then regionStrOf r.region else "N/A" := by
    match hr : r.region with
    | none => simp [regionFieldValid]
    | some .vnull | some (.vbool _) | some (.vnum _) | some (.vlist _) =>
      simp [regionFieldValid]
    | some (.vstr s) =>
      by_cases hs : s ∈ validRegions <;> simp [regionFieldValid, regionStrOf, hs]
  match hc : r.country with
  | none =>
    unfold Anaylzer.validate_result
    simp only [hc, Option.getD, pyTruthy, pyLen, pyEqStr, normCountryV2]
    norm_num
    exact hregion
  | some (.vstr s) =>
    unfold Anaylzer.validate_result
    by_cases hs : s = ""
    · subst hs
      simp only [hc, Option.getD, pyTruthy, pyLen, pyEqStr, normCountryV2]
      norm_num
      exact hregion
    · by_cases h2 : s.length = 2
      · simp only [hc, Option.getD, pyTruthy, pyLen, pyEqStr, normCountryV2]
        norm_num [hs, h2]
        exact hregion
      · by_cases hna : s = "N/A"
        · subst hna
          simp only [hc, Option.getD, pyTruthy, pyLen, pyEqStr, normCountryV2]
          norm_num
          exact hregion
        · simp only [hc, Option.getD, pyTruthy, pyLen, pyEqStr, normCountryV2]
          norm_num [hs, h2, hna]
          exact hregion
  | some .vnull | some (.vbool _) | some (.vnum _) | some (.vlist _) =>
    rw [countryStrOrAbsent, hc] at h
    cases h

theorem chunksGo_join {α : Type} (B : Nat) (hB : 0 < B) :
    ∀ (fuel : Nat) (l : List α), l.length ≤ fuel →
      (chunksGo B fuel l).flatten = l := by
  intro fuel
  induction fuel with
  | zero =>
    intro l hl
    have : l = [] := List.eq_nil_of_length_eq_zero (Nat.le_zero.mp hl)
    subst this
    rfl
  | succ fuel ih =>
    intro l hl
    cases l with
    | nil => rfl
    | cons x xs =>
      have hdrop : ((x :: xs).drop B).length ≤ fuel := by
        rw [List.length_drop]
        simp at hl ⊢
        omega
      simp only [chunksGo, List.flatten]
      rw [ih _ hdrop, List.take_append_drop]

theorem chunksGo_length {α : Type} (B : Nat) (hB : 0 < B) :
    ∀ (fuel : Nat) (l : List α), l.length ≤ fuel →
      (chunksGo B fuel l).length = (l.length + B - 1) / B := by
  intro fuel
  induction fuel with
  | zero =>
    intro l hl
    have : l = [] := List.eq_nil_of_length_eq_zero (Nat.le_zero.mp hl)
    subst this
    simp [chunksGo, Nat.div_eq_of_lt (by omega : B - 1 < B)]
  | succ fuel ih =>
    intro l hl
    cases l with
    | nil => simp [chunksGo, Nat.div_eq_of_lt (by omega : B - 1 < B)]
    | cons x xs =>
      have hdrop : ((x :: xs).drop B).length ≤ fuel := by
        rw [List.length_drop]
        simp at hl ⊢
        omega
      simp only [chunksGo, List.length_cons]
      rw [ih _ hdrop, List.length_drop, List.length_cons]
      rcases le_or_lt (xs.length + 1) B with hle | hlt
      · have h0 : xs.length + 1 - B = 0 := by omega
        rw [h0]
        have hlhs : (xs.length + 1 + B - 1) / B = 1 :=
          Nat.div_eq_of_lt_le (by omega) (by omega)
        have hrhs : (0 + B - 1) / B = 0 := Nat.div_eq_of_lt (by omega)
        rw [hlhs, hrhs]
      · have e1 : xs.length + 1 + B - 1 = (xs.length + 1 - 1) + B := by omega
        have e2 : xs.length + 1 - B + B - 1 = xs.length + 1 - 1 := by omega
        rw [e1, e2, Nat.add_div_right _ hB]

theorem chunks_join {α : Type} (B : Nat) (hB : 0 < B) (l : List α) :
    (chunks B l).flatten = l :=
  chunksGo_join B hB l.length l le_rfl

theorem chunks_length {α : Type} (B : Nat) (hB : 0 < B) (l : List α) :
    (chunks B l).length = (l.length + B - 1) / B :=
  chunksGo_length B hB l.length l le_rfl

theorem chunksGo_sizes {α : Type} (B : Nat) (hB : 0 < B) :
    ∀ (fuel : Nat) (l : List α), l.length ≤ fuel →
      ∀ b ∈ chunksGo B fuel l, b.length ≤ B ∧ b ≠ [] := by
  intro fuel
  induction fuel with
  | zero =>
    intro l hl
    have : l = [] := List.eq_nil_of_length_eq_zero (Nat.le_zero.mp hl)
    subst this
    simp [chunksGo]
  | succ fuel ih =>
    intro l hl
    cases l with
    | nil => simp [chunksGo]
    | cons x xs =>
      have hdrop : ((x :: xs).drop B).length ≤ fuel := by
        rw [List.length_drop]
        simp at hl ⊢
        omega
      intro b hb
      simp only [chunksGo, List.mem_cons] at hb
      rcases hb with hb | hb
      · subst hb
        constructor
        · simp [List.length_take]
        · simp [List.take_eq_nil_iff]
          omega
      · exact ih _ hdrop b hb

theorem chunksGo_size_eq {α : Type} (B : Nat) (hB : 0 < B) :
    ∀ (fuel : Nat) (l : List α) (i : Nat), l.length ≤ fuel →
      i + 1 < (chunksGo B fuel l).length →
      (((chunksGo B fuel l)[i]?).getD []).length = B := by
  intro fuel
  induction fuel with
  | zero =>
    intro l i hl hi
    have : l = [] := List.eq_nil_of_length_eq_zero (Nat.le_zero.mp hl)
    subst this
    simp [chunksGo] at hi
  | succ fuel ih =>
    intro l i hl hi
    cases l with
    | nil => simp [chunksGo] at hi
    | cons x xs =>
      have hdrop : ((x :: xs).drop B).length ≤ fuel := by
        rw [List.length_drop]
        simp at hl ⊢
        omega
      cases i with
      | zero =>
        have hrest : chunksGo B fuel ((x :: xs).drop B) ≠ [] := by
          intro e
          simp only [chunksGo, List.length_cons, e] at hi
          simp at hi
        have hd : (x :: xs).drop B ≠ [] := by
          intro e
          rw [e] at hrest
          cases fuel <;> simp [chunksGo] at hrest
        have hBlt : B < (x :: xs).length := by
          by_contra hc
          push_neg at hc
          exact hd (List.drop_eq_nil_of_le hc)
        simp only [chunksGo, List.getElem?_cons_zero, Option.getD_some,
          List.length_take]
        omega
      | succ j =>
        simp only [chunksGo, List.length_cons, List.getElem?_cons_succ] at hi ⊢
        exact ih _ j hdrop (by omega)

theorem analyzer_processBatch_cons {A : Type} (arts : List A) (raw : RawResult)
    (rest : List RawResult) (idx : Nat) (v : Analyzer.Validated) (a : A)
    (hv : Analyzer.validate_result raw = .ok v) (hget : arts[idx]? = some a) :
    Analyzer.processBatch arts (raw :: rest) idx
      = (Analyzer.processBatch arts rest (idx + 1)).map
          (fun tail =>
            { article := a
              country := v.country
              region := v.region
              is_hangar_related := v.is_hangar_related
              completion_status := v.completion_status } :: tail) := by
  rw [Analyzer.processBatch, hv, hget]

theorem anaylzer_processBatch_cons (raw : RawResult) (rest : List RawResult)
    (v : Anaylzer.Validated) (hv : Anaylzer.validate_result raw = .ok v) :
    Anaylzer.processBatch (raw :: rest)
      = (Anaylzer.processBatch rest).map (v :: ·) := by
  rw [Anaylzer.processBatch, hv]

theorem analyzer_processBatch_ok {A : Type} (arts : List A) :
    ∀ (raws : List RawResult) (idx : Nat),
      (∀ r ∈ raws, countryStrOrAbsent r = true) →
      idx + raws.length ≤ arts.length →
      ∃ vs, Analyzer.processBatch arts raws idx = some vs ∧
        vs.length = raws.length := by
  intro raws
  induction raws with
  | nil => exact fun idx _ _ => ⟨[], rfl, rfl⟩
  | cons raw rest ih =>
    intro idx hok hlen
    have h1 : countryStrOrAbsent raw = true := hok raw (by simp)
    have hv := analyzer_validate_eq raw h1
    have hidx : idx < arts.length := by
      simp only [List.length_cons] at hlen
      omega
    have hget : arts[idx]? = some arts[idx] := List.getElem?_eq_getElem hidx
    obtain ⟨vs, hvs, hl⟩ := ih (idx + 1)
      (fun r hr => hok r (by simp [hr]))
      (by simp only [List.length_cons] at hlen; omega)
    rw [analyzer_processBatch_cons arts raw rest idx _ arts[idx] hv hget, hvs]
    exact ⟨_, rfl, by simp [hl]⟩

theorem anaylzer_processBatch_ok :
    ∀ (raws : List RawResult),
      (∀ r ∈ raws, countryStrOrAbsent r = true) →
      ∃ vs, Anaylzer.processBatch raws = some vs ∧
        vs.length = raws.length := by
  intro raws
  induction raws with
  | nil => exact fun _ => ⟨[], rfl, rfl⟩
  | cons raw rest ih =>
    intro hok
    have hv := anaylzer_validate_eq raw (hok raw (by simp))
    obtain ⟨vs, hvs, hl⟩ := ih (fun r hr => hok r (by simp [hr]))
    rw [anaylzer_processBatch_cons raw rest _ hv, hvs]
    exact ⟨_, rfl, by simp [hl]⟩

theorem analyzer_analyze_batch_length {A : Type} (b : List A)
    (resp : Option (List RawResult)) (h : batchSucceeds resp b) :
    (Analyzer.analyze_batch b resp).length = b.length := by
  obtain ⟨raws, hresp, hlen, hok⟩ := h
  obtain ⟨vs, hvs, hl⟩ := analyzer_processBatch_ok b raws 0 hok (by omega)
  rw [hresp]
  simp [Analyzer.analyze_batch, hvs, hl, hlen]

theorem anaylzer_attachOriginals_length {A : Type} (b : List A)
    (results : List Anaylzer.Validated) :
    (Anaylzer.attachOriginals b results).length = results.length := by
  simp [Anaylzer.attachOriginals]

theorem anaylzer_analyze_batch_length {A : Type} (b : List A)
    (resp : Option (List RawResult)) (h : batchSucceeds resp b) :
    (Anaylzer.attachOriginals b (Anaylzer.analyze_batch resp)).length
      = b.length := by
  obtain ⟨raws, hresp, hlen, hok⟩ := h
  obtain ⟨vs, hvs, hl⟩ := anaylzer_processBatch_ok raws hok
  rw [hresp, anaylzer_attachOriginals_length]
  simp [Anaylzer.analyze_batch, hvs, hl, hlen]

theorem analyzer_runBatches_length {A : Type}
    (oracle : Nat → Option (List RawResult)) :
    ∀ (bs : List (List A)) (i0 : Nat),
      (∀ j b, bs[j]? = some b → batchSucceeds (oracle (i0 + j)) b) →
      (Analyzer.runBatches oracle bs i0).length = (bs.map List.length).sum := by
  intro bs
  induction bs with
  | nil => intro i0 _; simp [Analyzer.runBatches]
  | cons b rest ih =>
    intro i0 h
    have hb : batchSucceeds (oracle i0) b := by
      have hh := h 0 b (by simp)
      simpa using hh
    rw [Analyzer.runBatches, List.length_append,
      analyzer_analyze_batch_length b _ hb, ih (i0 + 1) ?_]
    · simp
    · intro j bj hj
      have hh := h (j + 1) bj (by simpa using hj)
      have e : i0 + (j + 1) = i0 + 1 + j := by omega
      rw [e] at hh
      exact hh

theorem anaylzer_runBatches_length {A : Type}
    (oracle : Nat → Option (List RawResult)) :
    ∀ (bs : List (List A)) (i0 : Nat),
      (∀ j b, bs[j]? = some b → batchSucceeds (oracle (i0 + j)) b) →
      (Anaylzer.runBatches oracle bs i0).length = (bs.map List.length).sum := by
  intro bs
  induction bs with
  | nil => intro i0 _; simp [Anaylzer.runBatches]
  | cons b rest ih =>
    intro i0 h
    have hb : batchSucceeds (oracle i0) b := by
      have hh := h 0 b (by simp)
      simpa using hh
    rw [Anaylzer.runBatches, List.length_append,
      anaylzer_analyze_batch_length b _ hb, ih (i0 + 1) ?_]
    · simp
    · intro j bj hj
      have hh := h (j + 1) bj (by simpa using hj)
      have e : i0 + (j + 1) = i0 + 1 + j := by omega
      rw [e] at hh
      exact hh

theorem analyzer_runBatches_eq_flatten {A : Type}
    (oracle : Nat → Option (List RawResult)) :
    ∀ (bs : List (List A)) (i0 : Nat),
      Analyzer.runBatches oracle bs i0
        = (Analyzer.batchOutputs oracle bs i0).flatten := by
  intro bs
  induction bs with
  | nil => intro i0; rfl
  | cons b rest ih =>
    intro i0
    rw [Analyzer.runBatches, Analyzer.batchOutputs, List.flatten_cons, ih]

theorem anaylzer_runBatches_eq_flatten {A : Type}
    (oracle : Nat → Option (List RawResult)) :
    ∀ (bs : List (List A)) (i0 : Nat),
      Anaylzer.runBatches oracle bs i0
        = (Anaylzer.batchOutputs oracle bs i0).flatten := by
  intro bs
  induction bs with
  | nil => intro i0; rfl
  | cons b rest ih =>
    intro i0
    rw [Anaylzer.runBatches, Anaylzer.batchOutputs, List.flatten_cons, ih]

theorem analyzer_batchOutputs_get {A : Type}
    (oracle : Nat → Option (List RawResult)) :
    ∀ (bs : List (List A)) (i0 k : Nat),
      (Analyzer.batchOutputs oracle bs i0)[k]?
        = (bs[k]?).map (fun b => Analyzer.analyze_batch b (oracle (i0 + k))) := by
  intro bs
  induction bs with
  | nil => intro i0 k; simp [Analyzer.batchOutputs]
  | cons b rest ih =>
    intro i0 k
    cases k with
    | zero => simp [Analyzer.batchOutputs]
    | succ j =>
      rw [Analyzer.batchOutputs]
      rw [List.getElem?_cons_succ, List.getElem?_cons_succ, ih (i0 + 1) j]
      have e : i0 + 1 + j = i0 + (j + 1) := by omega
      rw [e]

theorem anaylzer_batchOutputs_get {A : Type}
    (oracle : Nat → Option (List RawResult)) :
    ∀ (bs : List (List A)) (i0 k : Nat),
      (Anaylzer.batchOutputs oracle bs i0)[k]?
        = (bs[k]?).map
            (fun b =>
              Anaylzer.attachOriginals b (Anaylzer.analyze_batch (oracle (i0 + k)))) := by
  intro bs
  induction bs with
  | nil => intro i0 k; simp [Anaylzer.batchOutputs]
  | cons b rest ih =>
    intro i0 k
    cases k with
    | zero => simp [Anaylzer.batchOutputs]
    | succ j =>
      rw [Anaylzer.batchOutputs]
      rw [List.getElem?_cons_succ, List.getElem?_cons_succ, ih (i0 + 1) j]
      have e : i0 + 1 + j = i0 + (j + 1) := by omega
      rw [e]

theorem filter_new_urls_subset :
    ∀ (l : List WebArticle) (s : Finset String),
      s ⊆ (filter_new_urls s l).2 := by
  intro l
  induction l with
  | nil => intro s; exact Finset.Subset.refl s
  | cons a l ih =>
    intro s
    rw [filter_new_urls]
    split_ifs with h
    · exact (Finset.subset_insert _ _).trans (ih _)
    · exact ih s

theorem filter_new_urls_covers :
    ∀ (l : List WebArticle) (s : Finset String) (a : WebArticle), a ∈ l →
      a.sourceUrl = "" ∨ a.sourceUrl ∈ (filter_new_urls s l).2 := by
  intro l
  induction l with
  | nil => intro s a ha; cases ha
  | cons b l ih =>
    intro s a ha
    rw [List.mem_cons] at ha
    rw [filter_new_urls]
    rcases ha with ha | ha
    · subst ha
      split_ifs with h
      · right
        exact filter_new_urls_subset l _ (Finset.mem_insert_self _ _)
      · push_neg at h
        by_cases he : a.sourceUrl = ""
        · exact Or.inl he
        · right
          exact filter_new_urls_subset l s (h he)
    · split_ifs with h
      · exact ih _ a ha
      · exact ih s a ha

theorem filter_new_urls_stable :
    ∀ (l : List WebArticle) (s : Finset String),
      (∀ a ∈ l, a.sourceUrl = "" ∨ a.sourceUrl ∈ s) →
      filter_new_urls s l = ([], s) := by
  intro l
  induction l with
  | nil => intro s _; rfl
  | cons b l ih =>
    intro s h
    have hb := h b (by simp)
    rw [filter_new_urls, if_neg ?_]
    · exact ih s (fun a ha => h a (by simp [ha]))
    · rintro ⟨hne, hnotin⟩
      rcases hb with hb | hb
      · exact hne hb
      · exact hnotin hb

theorem update_filter_subset :
    ∀ (l : List WebArticle) (s : Finset String),
      s ⊆ (update_existing_excel_filter s l).2 := by
  intro l
  induction l with
  | nil => intro s; exact Finset.Subset.refl s
  | cons a l ih =>
    intro s
    rw [update_existing_excel_filter]
    split_ifs with h
    · exact Finset.subset_union_left.trans (ih _)
    · exact ih s

theorem update_filter_covers :
    ∀ (l : List WebArticle) (s : Finset String) (a : WebArticle), a ∈ l →
      ∀ p ∈ getPatterns a, p ∈ (update_existing_excel_filter s l).2 := by
  intro l
  induction l with
  | nil => intro s a ha; cases ha
  | cons b l ih =>
    intro s a ha p hp
    rw [List.mem_cons] at ha
    rw [update_existing_excel_filter]
    rcases ha with ha | ha
    · subst ha
      split_ifs with h
      · exact update_filter_subset l _
          (Finset.mem_union_right _ (List.mem_toFinset.mpr hp))
      · push_neg at h
        exact update_filter_subset l s (h p hp)
    · split_ifs with h
      · exact ih _ a ha p hp
      · exact ih s a ha p hp

theorem update_filter_stable :
    ∀ (l : List WebArticle) (s : Finset String),
      (∀ a ∈ l, ∀ p ∈ getPatterns a, p ∈ s) →
      update_existing_excel_filter s l = ([], s) := by
  intro l
  induction l with
  | nil => intro s _; rfl
  | cons b l ih =>
    intro s h
    rw [update_existing_excel_filter, if_neg ?_]
    · exact ih s (fun a ha => h a (by simp [ha]))
    · rintro ⟨p, hp, hnotin⟩
      exact hnotin (h b (by simp) p hp)

theorem update_filter_append :
    ∀ (l1 l2 : List WebArticle) (s : Finset String),
      update_existing_excel_filter s (l1 ++ l2) =
        ((update_existing_excel_filter s l1).1 ++
          (update_existing_excel_filter (update_existing_excel_filter s l1).2 l2).1,
         (update_existing_excel_filter (update_existing_excel_filter s l1).2 l2).2) := by
  intro l1
  induction l1 with
  | nil => intro l2 s; rfl
  | cons a l1 ih =>
    intro l2 s
    rw [List.cons_append, update_existing_excel_filter,
      update_existing_excel_filter]
    split_ifs with h
    · simp [ih]
    · simp [ih]

theorem update_filter_output_tags :
    ∀ (l : List WebArticle) (s : Finset String) (a : WebArticle),
      a ∈ (update_existing_excel_filter s l).1 → getPatterns a ≠ [] := by
  intro l
  induction l with
  | nil => intro s a ha; cases ha
  | cons b l ih =>
    intro s a ha
    rw [update_existing_excel_filter] at ha
    split_ifs at ha with h
    · rcases List.mem_cons.mp ha with hab | ha
      · subst hab
        obtain ⟨p, hp, _⟩ := h
        intro he
        rw [he] at hp
        cases hp
      · exact ih _ a ha
    · exact ih s a ha


theorem regionStrOf_mem_of_valid (rv : Option Value)
    (h : regionFieldValid rv = true) : regionStrOf rv ∈ regionEnum := by
  match rv with
  | none => cases h
  | some .vnull | some (.vbool _) | some (.vnum _) | some (.vlist _) => cases h
  | some (.vstr s) =>
    have hs : s ∈ validRegions := by simpa [regionFieldValid] using h
    fin_cases hs <;> simp [regionStrOf, regionEnum]

theorem analyzer_region_mem (r : RawResult) (h : countryStrOrAbsent r = true) :
    ∃ v, Analyzer.validate_result r = .ok v ∧ v.region ∈ regionEnum := by
  refine ⟨_, analyzer_validate_eq r h, ?_⟩
  by_cases hr : regionFieldValid r.region
  · simp only [hr, if_true]
    exact regionStrOf_mem_of_valid r.region hr
  · simp only [hr, if_false]
    exact deriveRegion_mem _

/-! ## Claim C1 (validator totality) -/

/-- C1, counterexample: `validate_result` is not total on malformed inputs
with a non-string country — both variants evaluate `len(country)` on the
truthy number `5` and raise `TypeError`, so the claim "never raises an
exception, including for non-string field values" is false as stated. -/
theorem c1_counterexample :
    Analyzer.validate_result
        { country := some (.vnum 5), region := none
          is_hangar_related := none, completion_status := none }
      = .error "TypeError"
    ∧ Anaylzer.validate_result
        { country := some (.vnum 5), region := none
          is_hangar_related := none, completion_status := none }
      = .error "TypeError" :=
  ⟨rfl, rfl⟩

/-- C1, amended: for every raw classification whose country field is absent
or holds a string — with the region field and both flag fields arbitrary
values of any type — both variants of `validate_result` return a cleaned
object without raising; the `analyzer.py` result satisfies the data-model
invariants (country a 2-letter code or "N/A", region one of the four enum
values or "N/A", flags boolean by construction), and the `anaylzer.py`
result satisfies the region invariant (its country handling is settled
under C9). A truthy non-string country (e.g. a number) raises `TypeError`. -/
theorem c1_validator_totality (r : RawResult)
    (h : countryStrOrAbsent r = true) :
    (∃ v, Analyzer.validate_result r = .ok v
      ∧ (v.country = "N/A" ∨ v.country.length = 2)
      ∧ v.region ∈ regionEnum)
    ∧ (∃ w, Anaylzer.validate_result r = .ok w ∧ w.region ∈ regionEnum) := by
  constructor
  · obtain ⟨v, hv, hmem⟩ := analyzer_region_mem r h
    refine ⟨v, hv, ?_, hmem⟩
    have := analyzer_validate_eq r h
    rw [this] at hv
    cases hv
    exact normCountry_ok r.country
  · refine ⟨_, anaylzer_validate_eq r h, ?_⟩
    by_cases hr : regionFieldValid r.region
    · simp only [hr, if_true]
      exact regionStrOf_mem_of_valid r.region hr
    · simp only [hr, if_false, regionEnum]
      simp

/-- C1, witness: the amended theorem applied to a concrete malformed input
(3-letter country, numeric region, list-valued flag). -/
theorem c1_witness :
    countryStrOrAbsent
        { country := some (.vstr "usa"), region := some (.vnum 3)
          is_hangar_related := some (.vlist []), completion_status := none }
      = true
    ∧ ((∃ v, Analyzer.validate_result
          { country := some (.vstr "usa"), region := some (.vnum 3)
            is_hangar_related := some (.vlist []), completion_status := none }
          = .ok v
        ∧ (v.country = "N/A" ∨ v.country.length = 2)
        ∧ v.region ∈ regionEnum)
      ∧ (∃ w, Anaylzer.validate_result
          { country := some (.vstr "usa"), region := some (.vnum 3)
            is_hangar_related := some (.vlist []), completion_status := none }
          = .ok w ∧ w.region ∈ regionEnum)) :=
  ⟨rfl, c1_validator_totality _ rfl⟩

/-! ## Claim C2 (region re-derivation) -/

theorem deriveRegion_of_unmapped (c : String)
    (h : c ∉ Analyzer.ukNaCountries ++ Analyzer.emeaCountries ++
      Analyzer.apacCountries ++ Analyzer.latamCountries) :
    Analyzer.deriveRegion c = "N/A" := by
  simp only [List.mem_append, not_or] at h
  obtain ⟨⟨⟨h1, h2⟩, h3⟩, h4⟩ := h
  simp [Analyzer.deriveRegion, h1, h2, h3, h4]

/-- C2, counterexample: the claim quantifies over `validate_result` in both
source files, but the `anaylzer.py` variant does not re-derive an invalid
region from the country table: with country `"US"` (mapped to UK_NA by the
fixed table, and so re-derived by `analyzer.py`) and the invalid region
`"bogus"`, it simply writes `"N/A"`. -/
theorem c2_counterexample :
    Anaylzer.validate_result
        { country := some (.vstr "US"), region := some (.vstr "bogus")
          is_hangar_related := none, completion_status := none }
      = .ok { country := some (.vstr "US"), region := "N/A"
              is_hangar_related := false, completion_status := false }
    ∧ Analyzer.deriveRegion "US" = "UK_NA"
    ∧ Analyzer.validate_result
        { country := some (.vstr "US"), region := some (.vstr "bogus")
          is_hangar_related := none, completion_status := none }
      = .ok { country := "US", region := "UK_NA"
              is_hangar_related := true, completion_status := false } :=
  ⟨rfl, rfl, rfl⟩

/-- C2, amended: in `analyzer.py`, for every raw classification with an
invalid region field (on the validator's no-raise domain), the region is
re-derived deterministically from the country via the fixed table — the
result does not depend on which invalid region value or flag values were
supplied — and is "N/A" when the normalized country is unmapped (which
includes an absent country). In the `anaylzer.py` variant an invalid
region is always replaced by "N/A", regardless of the country. -/
theorem c2_region_rederivation :
    (∀ (c rv1 rv2 f1 g1 f2 g2 : Option Value),
      countryStrOrAbsent
          { country := c, region := rv1
            is_hangar_related := f1, completion_status := g1 } = true →
      regionFieldValid rv1 = false → regionFieldValid rv2 = false →
      ∃ v1 v2,
        Analyzer.validate_result
            { country := c, region := rv1
              is_hangar_related := f1, completion_status := g1 } = .ok v1
        ∧ Analyzer.validate_result
            { country := c, region := rv2
              is_hangar_related := f2, completion_status := g2 } = .ok v2
        ∧ v1.region = v2.region
        ∧ v1.region = Analyzer.deriveRegion (normCountry c)
        ∧ (normCountry c ∉ Analyzer.ukNaCountries ++ Analyzer.emeaCountries ++
              Analyzer.apacCountries ++ Analyzer.latamCountries →
            v1.region = "N/A"))
    ∧ (∀ r : RawResult, countryStrOrAbsent r = true →
        regionFieldValid r.region = false →
        ∃ w, Anaylzer.validate_result r = .ok w ∧ w.region = "N/A") := by
  constructor
  · intro c rv1 rv2 f1 g1 f2 g2 hc h1 h2
    have hc2 : countryStrOrAbsent
        { country := c, region := rv2
          is_hangar_related := f2, completion_status := g2 } = true := hc
    refine ⟨_, _, analyzer_validate_eq _ hc, analyzer_validate_eq _ hc2,
      ?_, ?_, ?_⟩
    · simp [h1, h2]
    · simp [h1]
    · intro hun
      simp [h1, deriveRegion_of_unmapped _ hun]
  · intro r hc hr
    refine ⟨_, anaylzer_validate_eq r hc, ?_⟩
    simp [hr]

/-- C2, witness: both parts of the amended theorem applied to concrete
inputs — country `"fr"` with two different invalid regions for
`analyzer.py`, and country `"FR"` with a null region for `anaylzer.py`. -/
theorem c2_witness :
    (∃ v1 v2,
      Analyzer.validate_result
          { country := some (.vstr "fr"), region := some (.vnum 1)
            is_hangar_related := none, completion_status := none } = .ok v1
      ∧ Analyzer.validate_result
          { country := some (.vstr "fr"), region := some (.vstr "emea")
            is_hangar_related := some (.vbool true)
            completion_status := none } = .ok v2
      ∧ v1.region = v2.region
      ∧ v1.region = Analyzer.deriveRegion (normCountry (some (.vstr "fr")))
      ∧ (normCountry (some (.vstr "fr")) ∉
            Analyzer.ukNaCountries ++ Analyzer.emeaCountries ++
              Analyzer.apacCountries ++ Analyzer.latamCountries →
          v1.region = "N/A"))
    ∧ (∃ w, Anaylzer.validate_result
          { country := some (.vstr "FR"), region := some .vnull
            is_hangar_related := none, completion_status := none } = .ok w
        ∧ w.region = "N/A") :=
  ⟨c2_region_rederivation.1 (some (.vstr "fr")) (some (.vnum 1))
      (some (.vstr "emea")) none none (some (.vbool true)) none
      rfl rfl (by decide),
    c2_region_rederivation.2 _ rfl rfl⟩

/-! ## Claim C9 (country normalization) -/

/-- C9, counterexample: in the `anaylzer.py` variant the empty-string
country is falsy, so the forcing branch is skipped and the cleaned object
keeps `country = ""` — neither a 2-letter code nor "N/A", contradicting
the claim that the empty string is forced to "N/A". -/
theorem c9_counterexample :
    Anaylzer.validate_result
        { country := some (.vstr ""), region := none
          is_hangar_related := none, completion_status := none }
      = .ok { country := some (.vstr ""), region := "N/A"
              is_hangar_related := false, completion_status := false }
    ∧ ("" : String) ≠ "N/A" ∧ ("" : String).length ≠ 2 :=
  ⟨rfl, by decide, by decide⟩

/-- C9, amended: in `analyzer.py`, after `validate_result` (on its no-raise
domain) the country field equals `normCountry` of the supplied value — a
2-letter string is kept upper-cased and everything else (empty string,
longer strings, absent value) is forced to "N/A". In the `anaylzer.py`
variant the field instead equals `normCountryV2` of the supplied value:
only a truthy string of length ≠ 2 other than "N/A" is forced to "N/A",
while the empty string is kept as-is, an absent key stays absent, and a
2-letter code is kept without case normalization. -/
theorem c9_country_normalization (r : RawResult)
    (h : countryStrOrAbsent r = true) :
    (∃ v, Analyzer.validate_result r = .ok v
      ∧ v.country = normCountry r.country
      ∧ (v.country = "N/A" ∨ v.country.length = 2))
    ∧ (∃ w, Anaylzer.validate_result r = .ok w
      ∧ w.country = normCountryV2 r.country) := by
  refine ⟨⟨_, analyzer_validate_eq r h, rfl, normCountry_ok r.country⟩,
    ⟨_, anaylzer_validate_eq r h, rfl⟩⟩

/-- C9, witness: the amended theorem applied to the concrete country
`"usa"` (forced to "N/A" by `analyzer.py`, and also by `anaylzer.py`
since it is truthy, of length 3 and not "N/A"). -/
theorem c9_witness :
    countryStrOrAbsent
        { country := some (.vstr "usa"), region := none
          is_hangar_related := none, completion_status := none } = true
    ∧ ((∃ v, Analyzer.validate_result
          { country := some (.vstr "usa"), region := none
            is_hangar_related := none, completion_status := none } = .ok v
        ∧ v.country = normCountry (some (.vstr "usa"))
        ∧ (v.country = "N/A" ∨ v.country.length = 2))
      ∧ (∃ w, Anaylzer.validate_result
          { country := some (.vstr "usa"), region := none
            is_hangar_related := none, completion_status := none } = .ok w
        ∧ w.country = normCountryV2 (some (.vstr "usa")))) :=
  ⟨rfl, c9_country_normalization _ rfl⟩


/-! ## Claim C3 (batching completeness) -/

/-- C3, counterexample: with one article and a fully successful batch call
returning exactly one well-formed result per submitted article, the
`analyzer.py` `process_all_articles` still returns zero classifications,
because its inline post-filter (line 185) drops the article whose region
(`"EMEA"`) differs from the run's default region (`"UK_NA"`). The claim
"a fully successful run returns classifications for all N articles" is
therefore false for this variant. -/
theorem c3_counterexample :
    (Analyzer.process_all_articles "UK_NA" 10 [(0 : Nat)]
        (fun _ => some [{ country := some (.vstr "FR")
                          region := some (.vstr "EMEA")
                          is_hangar_related := some (.vbool true)
                          completion_status := some (.vbool false) }])).length
      = 0
    ∧ (Analyzer.process_all_articles "UK_NA" 10 [(0 : Nat)]
        (fun _ => some [{ country := some (.vstr "FR")
                          region := some (.vstr "EMEA")
                          is_hangar_related := some (.vbool true)
                          completion_status := some (.vbool false) }])).length
      ≠ [(0 : Nat)].length
    ∧ Analyzer.validate_result
        { country := some (.vstr "FR"), region := some (.vstr "EMEA")
          is_hangar_related := some (.vbool true)
          completion_status := some (.vbool false) }
      = .ok { country := "FR", region := "EMEA"
              is_hangar_related := true, completion_status := false }
    ∧ chunks 10 [(0 : Nat)] = [[0]] := by
  refine ⟨?_, ?_, rfl, rfl⟩ <;> decide

/-- C3, amended: for every article list and batch size B > 0 the loop
issues exactly `ceil(N/B)` batch calls, each over at most B articles
(nonempty, and exactly B for every batch but the last). When every batch
call succeeds with exactly one valid result per submitted article, the
`anaylzer.py` variant returns classifications for all N articles, and the
`analyzer.py` variant enriches all N articles but returns only those that
pass its inline in-territory post-filter. -/
theorem c3_batching_completeness {A : Type} (B : Nat) (hB : 0 < B)
    (defaultRegion : String) (arts : List A)
    (oracle : Nat → Option (List RawResult)) :
    (chunks B arts).length = (arts.length + B - 1) / B
    ∧ (∀ b ∈ chunks B arts, b.length ≤ B ∧ b ≠ [])
    ∧ (∀ i, i + 1 < (chunks B arts).length →
        (((chunks B arts)[i]?).getD []).length = B)
    ∧ ((∀ j b, (chunks B arts)[j]? = some b → batchSucceeds (oracle j) b) →
        (Anaylzer.process_all_articles B arts oracle).length = arts.length
        ∧ (Analyzer.allResults B arts oracle).length = arts.length
        ∧ Analyzer.process_all_articles defaultRegion B arts oracle
            = (Analyzer.allResults B arts oracle).filter
                (Analyzer.inTerritory defaultRegion)) := by
  refine ⟨chunks_length B hB arts,
    chunksGo_sizes B hB arts.length arts le_rfl,
    fun i hi => chunksGo_size_eq B hB arts.length arts i le_rfl hi, ?_⟩
  intro h
  have h0 : ∀ j b, (chunks B arts)[j]? = some b →
      batchSucceeds (oracle (0 + j)) b := by
    intro j b hj
    simpa using h j b hj
  refine ⟨?_, ?_, rfl⟩
  · rw [Anaylzer.process_all_articles, anaylzer_runBatches_length oracle _ 0 h0,
      ← List.length_flatten, chunks_join B hB]
  · rw [Analyzer.allResults, analyzer_runBatches_length oracle _ 0 h0,
      ← List.length_flatten, chunks_join B hB]

/-- C3, witness: the amended theorem applied to a one-article run with
batch size 10 and a successful oracle; the batch count is `ceil(1/10) = 1`
and the `anaylzer.py` run returns one classification. -/
theorem c3_witness :
    (0 : Nat) < 10
    ∧ (chunks 10 [(0 : Nat)]).length = (([(0 : Nat)].length + 10 - 1) / 10)
    ∧ (Anaylzer.process_all_articles 10 [(0 : Nat)]
        (fun _ => some [{ country := some (.vstr "US")
                          region := some (.vstr "UK_NA")
                          is_hangar_related := some (.vbool true)
                          completion_status := some (.vbool false) }])).length
      = [(0 : Nat)].length := by
  have hsucc : ∀ (j : Nat) (b : List Nat), (chunks 10 [(0 : Nat)])[j]? = some b →
      batchSucceeds
        ((fun _ => some [({ country := some (.vstr "US")
                            region := some (.vstr "UK_NA")
                            is_hangar_related := some (.vbool true)
                            completion_status := some (.vbool false) } :
              RawResult)]) j) b := by
    intro j b hj
    match j with
    | 0 =>
      have hb : b = [0] := by
        have : (chunks 10 [(0 : Nat)]) = [[0]] := rfl
        rw [this] at hj
        simpa using hj.symm
      subst hb
      exact ⟨_, rfl, rfl, by decide⟩
    | j + 1 =>
      have : (chunks 10 [(0 : Nat)]) = [[0]] := rfl
      rw [this] at hj
      simp at hj
  exact ⟨by decide,
    (c3_batching_completeness 10 (by decide) "UK_NA" [(0 : Nat)]
      (fun _ => some [{ country := some (.vstr "US")
                        region := some (.vstr "UK_NA")
                        is_hangar_related := some (.vbool true)
                        completion_status := some (.vbool false) }])).1,
    ((c3_batching_completeness 10 (by decide) "UK_NA" [(0 : Nat)]
      (fun _ => some [{ country := some (.vstr "US")
                        region := some (.vstr "UK_NA")
                        is_hangar_related := some (.vbool true)
                        completion_status := some (.vbool false) }])).2.2.2
      hsucc).1⟩

/-! ## Claim C5 (partial-batch failure isolation) -/

/-- C5, counterexample: 11 articles, batch size 10 (two batches); the
first batch's LLM call raises (`none`) and the second succeeds with one
result per submitted article, but that result fails `analyzer.py`'s
in-territory post-filter. The total output length is 0, while the
succeeding batch produced 1 result — so "total output length equals the
number of results produced by the succeeding batches only" is false as
stated for this variant. -/
theorem c5_counterexample :
    (fun i => if i = 0 then none else
      some [({ country := some (.vstr "FR"), region := some (.vstr "EMEA")
               is_hangar_related := some (.vbool true)
               completion_status := some (.vbool false) } : RawResult)]) 0
      = none
    ∧ (Analyzer.analyze_batch (((chunks 10 (List.range 11))[1]?).getD [])
        ((fun i => if i = 0 then none else
          some [({ country := some (.vstr "FR"), region := some (.vstr "EMEA")
                   is_hangar_related := some (.vbool true)
                   completion_status := some (.vbool false) } : RawResult)])
          1)).length = 1
    ∧ (Analyzer.process_all_articles "UK_NA" 10 (List.range 11)
        (fun i => if i = 0 then none else
          some [({ country := some (.vstr "FR"), region := some (.vstr "EMEA")
                   is_hangar_related := some (.vbool true)
                   completion_status := some (.vbool false) } : RawResult)])).length
      = 0 := by
  refine ⟨rfl, ?_, ?_⟩ <;> decide

/-- C5, amended: for every input list and oracle, if batch k's LLM call or
JSON parse raises, that batch contributes zero results and no exception
escapes `process_all_articles` (the loop is total: each batch contributes
its caught-and-validated result list). The total output is, in the
`anaylzer.py` variant, exactly the concatenation of the succeeding
batches' results; in the `analyzer.py` variant it is that concatenation
further restricted to results passing the inline in-territory filter. -/
theorem c5_partial_batch_failure {A : Type} (defaultRegion : String)
    (B : Nat) (arts : List A) (oracle : Nat → Option (List RawResult))
    (k : Nat) (hk : oracle k = none) :
    ((Analyzer.batchOutputs oracle (chunks B arts) 0)[k]?).getD [] = []
    ∧ Analyzer.process_all_articles defaultRegion B arts oracle
        = ((Analyzer.batchOutputs oracle (chunks B arts) 0).flatten).filter
            (Analyzer.inTerritory defaultRegion)
    ∧ ((Anaylzer.batchOutputs oracle (chunks B arts) 0)[k]?).getD [] = []
    ∧ (Anaylzer.process_all_articles B arts oracle).length
        = ((Anaylzer.batchOutputs oracle (chunks B arts) 0).map
            List.length).sum := by
  refine ⟨?_, ?_, ?_, ?_⟩
  · rw [analyzer_batchOutputs_get oracle (chunks B arts) 0 k]
    cases hc : (chunks B arts)[k]? <;>
      simp [hk, Analyzer.analyze_batch, Nat.zero_add]
  · rw [Analyzer.process_all_articles, Analyzer.allResults,
      analyzer_runBatches_eq_flatten]
  · rw [anaylzer_batchOutputs_get oracle (chunks B arts) 0 k]
    cases hc : (chunks B arts)[k]? <;>
      simp [hk, Anaylzer.analyze_batch, Anaylzer.attachOriginals,
        Nat.zero_add]
  · rw [Anaylzer.process_all_articles, anaylzer_runBatches_eq_flatten,
      List.length_flatten]

/-- C5, witness: the amended theorem applied to the concrete two-batch run
whose first batch raises. -/
theorem c5_witness :
    (fun i => if i = 0 then none else
      some [({ country := some (.vstr "FR"), region := some (.vstr "EMEA")
               is_hangar_related := some (.vbool true)
               completion_status := some (.vbool false) } : RawResult)])
      (0 : Nat) = none
    ∧ ((Analyzer.batchOutputs
          (fun i => if i = 0 then none else
            some [({ country := some (.vstr "FR")
                     region := some (.vstr "EMEA")
                     is_hangar_related := some (.vbool true)
                     completion_status := some (.vbool false) } : RawResult)])
          (chunks 10 (List.range 11)) 0)[0]?).getD [] = []
    ∧ Analyzer.process_all_articles "UK_NA" 10 (List.range 11)
        (fun i => if i = 0 then none else
          some [({ country := some (.vstr "FR")
                   region := some (.vstr "EMEA")
                   is_hangar_related := some (.vbool true)
                   completion_status := some (.vbool false) } : RawResult)])
      = ((Analyzer.batchOutputs
          (fun i => if i = 0 then none else
            some [({ country := some (.vstr "FR")
                     region := some (.vstr "EMEA")
                     is_hangar_related := some (.vbool true)
                     completion_status := some (.vbool false) } : RawResult)])
          (chunks 10 (List.range 11)) 0).flatten).filter
            (Analyzer.inTerritory "UK_NA")
    ∧ ((Anaylzer.batchOutputs
          (fun i => if i = 0 then none else
            some [({ country := some (.vstr "FR")
                     region := some (.vstr "EMEA")
                     is_hangar_related := some (.vbool true)
                     completion_status := some (.vbool false) } : RawResult)])
          (chunks 10 (List.range 11)) 0)[0]?).getD [] = []
    ∧ (Anaylzer.process_all_articles 10 (List.range 11)
        (fun i => if i = 0 then none else
          some [({ country := some (.vstr "FR")
                   region := some (.vstr "EMEA")
                   is_hangar_related := some (.vbool true)
                   completion_status := some (.vbool false) } : RawResult)])).length
      = ((Anaylzer.batchOutputs
          (fun i => if i = 0 then none else
            some [({ country := some (.vstr "FR")
                     region := some (.vstr "EMEA")
                     is_hangar_related := some (.vbool true)
                     completion_status := some (.vbool false) } : RawResult)])
          (chunks 10 (List.range 11)) 0).map List.length).sum :=
  ⟨rfl, c5_partial_batch_failure "UK_NA" 10 (List.range 11) _ 0 rfl⟩


/-! ## Claim C4 (cross-run identity-key coverage) -/

/-- C4: evaluation at the failing input. A region artifact whose first
(active) worksheet holds only the header row while a later weekly tab
`W20` holds a data row with URL `"http://u"`. `_load_existing_urls`
(`main.py`, `ws = wb.active`) loads an empty key set from it, even though
`get_existing_urls` (which reads every worksheet) finds the URL; the
URL deduplicator started from the loaded set consequently keeps a new
article with the very same URL instead of suppressing it. This contradicts
the claim (and `_load_existing_urls`'s own docstring, "Load all existing
URLs"): the key set used at process start does not cover every historical
tab, only the active one. -/
theorem c4_active_tab_only :
    load_existing_urls
        [[[excelFields.map some],
          [excelFields.map some, [some "Proj", some "http://u"]]]] = ∅
    ∧ "http://u" ∈ get_existing_urls
        [[excelFields.map some],
         [excelFields.map some, [some "Proj", some "http://u"]]]
    ∧ (filter_new_urls
        (load_existing_urls
          [[[excelFields.map some],
            [excelFields.map some, [some "Proj", some "http://u"]]]])
        [{ sourceUrl := "http://u", patterns := .absent }]).1
      = [{ sourceUrl := "http://u", patterns := .absent }] := by
  refine ⟨?_, ?_, ?_⟩ <;> decide

/-! ## Claim C6 (dedup idempotence) -/

/-- C6: running either deduplication filter a second time on the same
article list, starting from the key set produced by the first run, yields
an empty list of new articles — for the URL-exact scheme
(`filter_new_urls`) and the pattern-tag scheme (the filtering loop of
`update_existing_excel`) alike, because accepted keys are committed to the
seen-set immediately. -/
theorem c6_dedup_idempotence (l : List WebArticle) (t s : Finset String) :
    (filter_new_urls (filter_new_urls t l).2 l).1 = []
    ∧ (update_existing_excel_filter
        (update_existing_excel_filter s l).2 l).1 = [] := by
  constructor
  · rw [filter_new_urls_stable l (filter_new_urls t l).2
      (fun a ha => filter_new_urls_covers l t a ha)]
  · rw [update_filter_stable l (update_existing_excel_filter s l).2
      (fun a ha => update_filter_covers l s a ha)]

/-! ## Claim C7 (dedup monotonicity) -/

/-- C7: for every run of either deduplication filter, the seen-key set
after the run is a superset of the starting set — keys are only ever
added. Since the statement holds for an arbitrary starting set, it applies
in particular to every intermediate state of a run, so no key is removed
or rolled back mid-run. -/
theorem c7_dedup_monotonicity (l : List WebArticle) (t s : Finset String) :
    t ⊆ (filter_new_urls t l).2
    ∧ s ⊆ (update_existing_excel_filter s l).2 :=
  ⟨filter_new_urls_subset l t, update_filter_subset l s⟩

/-! ## Claim C8 (pattern partial-novelty rule) -/

/-- C8: under the pattern-tag scheme, the article following any prefix of
the input is accepted as new if and only if at least one of its tags is
absent from the seen-set current at that point (the historical set grown
by the committed tags of earlier accepted articles); whenever it is
accepted, all of its tags (not only the novel ones) are in the seen-set
afterwards, and when it is rejected the state is unchanged. -/
theorem c8_pattern_partial_novelty (s : Finset String)
    (l1 : List WebArticle) (a : WebArticle) :
    ((update_existing_excel_filter s (l1 ++ [a])).1
        = (update_existing_excel_filter s l1).1 ++ [a]
      ↔ ∃ p ∈ getPatterns a, p ∉ (update_existing_excel_filter s l1).2)
    ∧ ((∃ p ∈ getPatterns a, p ∉ (update_existing_excel_filter s l1).2) →
        ∀ p ∈ getPatterns a,
          p ∈ (update_existing_excel_filter s (l1 ++ [a])).2)
    ∧ (¬(∃ p ∈ getPatterns a, p ∉ (update_existing_excel_filter s l1).2) →
        update_existing_excel_filter s (l1 ++ [a])
          = update_existing_excel_filter s l1) := by
  have happ := update_filter_append l1 [a] s
  by_cases h : ∃ p ∈ getPatterns a, p ∉ (update_existing_excel_filter s l1).2
  · have hsingle : update_existing_excel_filter
        (update_existing_excel_filter s l1).2 [a]
        = ([a], (update_existing_excel_filter s l1).2 ∪
            (getPatterns a).toFinset) := by
      rw [update_existing_excel_filter, if_pos h]
      rfl
    rw [hsingle] at happ
    refine ⟨iff_of_true (by rw [happ]) h, fun _ p hp => ?_,
      fun hn => absurd h hn⟩
    rw [happ]
    exact Finset.mem_union_right _ (List.mem_toFinset.mpr hp)
  · have hsingle : update_existing_excel_filter
        (update_existing_excel_filter s l1).2 [a]
        = ([], (update_existing_excel_filter s l1).2) := by
      rw [update_existing_excel_filter, if_neg h]
      rfl
    rw [hsingle] at happ
    have heq : update_existing_excel_filter s (l1 ++ [a])
        = update_existing_excel_filter s l1 := by
      rw [happ]
      simp
    refine ⟨iff_of_false ?_ h, fun hx => absurd hx h, fun _ => heq⟩
    rw [heq]
    intro e
    have := congrArg List.length e
    simp at this

/-- C8, witness: the theorem applied to the singleton run starting from
the empty seen-set — the article's tag `"x"` is novel, the article is
accepted, and its tag is committed. -/
theorem c8_witness :
    (((update_existing_excel_filter ∅
          ([] ++ [{ sourceUrl := "", patterns := .ofString "x" }])).1
        = (update_existing_excel_filter
            (∅ : Finset String) ([] : List WebArticle)).1
          ++ [{ sourceUrl := "", patterns := .ofString "x" }]
      ↔ ∃ p ∈ getPatterns { sourceUrl := "", patterns := .ofString "x" },
          p ∉ (update_existing_excel_filter
            (∅ : Finset String) ([] : List WebArticle)).2)
    ∧ ((∃ p ∈ getPatterns { sourceUrl := "", patterns := .ofString "x" },
          p ∉ (update_existing_excel_filter
            (∅ : Finset String) ([] : List WebArticle)).2) →
        ∀ p ∈ getPatterns { sourceUrl := "", patterns := .ofString "x" },
          p ∈ (update_existing_excel_filter ∅
            ([] ++ [{ sourceUrl := "", patterns := .ofString "x" }])).2)
    ∧ (¬(∃ p ∈ getPatterns { sourceUrl := "", patterns := .ofString "x" },
          p ∉ (update_existing_excel_filter
            (∅ : Finset String) ([] : List WebArticle)).2) →
        update_existing_excel_filter ∅
            ([] ++ [{ sourceUrl := "", patterns := .ofString "x" }])
          = update_existing_excel_filter
              (∅ : Finset String) ([] : List WebArticle))) :=
  c8_pattern_partial_novelty ∅ [] { sourceUrl := "", patterns := .ofString "x" }

/-! ## Claim C10 (empty-pattern suppression) -/

/-- C10: an article whose parsed pattern-tag list is empty — the patterns
field is absent, an empty list, or a string with no non-empty
comma-separated tags — is never written to the new section by the
pattern-based deduplication, regardless of the seen pattern set, because
novelty requires at least one tag absent from the set and an empty tag
list cannot supply one. -/
theorem c10_empty_patterns_suppressed (s : Finset String)
    (l : List WebArticle) (a : WebArticle) (h : getPatterns a = []) :
    a ∉ (update_existing_excel_filter s l).1 :=
  fun hmem => update_filter_output_tags l s a hmem h

/-- C10, witness: the theorem applied to an article with an absent
patterns field, in a run over exactly that article. -/
theorem c10_witness :
    getPatterns { sourceUrl := "http://v", patterns := .absent } = []
    ∧ ({ sourceUrl := "http://v", patterns := .absent } : WebArticle)
        ∉ (update_existing_excel_filter ∅
            [{ sourceUrl := "http://v", patterns := .absent }]).1 :=
  ⟨rfl, c10_empty_patterns_suppressed ∅
    [{ sourceUrl := "http://v", patterns := .absent }] _ rfl⟩

end Safespill
